import Mathlib

/-!
Verification development for the Canvas-Tracker repository.

The definitions below are a shallow embedding of the Python source:
  - src/periodic_tasks.py : the hourly reconciliation (check_canvas and its
    inner helpers get_field_value, update_embed, handle_module);
  - src/commands.py       : the track enable/disable command and the watcher
    file helpers (store_channel_in_file, delete_channel_from_file);
  - src/util.py           : CanvasUtil.get_modules and write_modules_to_file.

Files are modelled as lists of lines (each line carries its trailing newline,
exactly as the Python code writes and compares them).  Canvas API objects are
modelled as records with optional attributes, mirroring the hasattr checks of
the source.  The Discord side is modelled as a resolution predicate on watcher
handles plus an event trace (snapshot truncation, line writes, embed sends).
-/

namespace CanvasTracker

/-- MAX_IDENTIFIER_LENGTH from src/periodic_tasks.py line 21. -/
def MAX_IDENTIFIER_LENGTH : Nat := 100

/-- EMBED_CHAR_LIMIT from src/periodic_tasks.py line 25. -/
def EMBED_CHAR_LIMIT : Nat := 6000

/-- The isinstance tag of a fetched object: canvasapi.module.Module versus
canvasapi.module.ModuleItem. -/
inductive Kind
  | module
  | moduleItem
deriving DecidableEq

/-- A fetched Canvas object.  Optional fields model the dynamic hasattr
checks of the Python source: a Module normally carries a name, a ModuleItem
a title and possibly an html_url. -/
structure Entry where
  kind : Kind
  id : Nat
  name : Option String := none
  title : Option String := none
  html_url : Option String := none
deriving DecidableEq

/-- One module of the fetched tree together with the module items returned
by module.get_module_items(), in fetch order. -/
structure ModuleNode where
  mod : Entry
  items : List Entry
deriving DecidableEq

/-- A field of a Discord embed (name/value pair), as added by
embed.add_field in update_embed. -/
structure Field where
  name : String
  value : String
deriving DecidableEq

/-- A Discord embed as used by check_canvas: a title plus a list of fields.
Only these two components are ever set by the source. -/
structure Embed where
  title : String
  fields : List Field
deriving DecidableEq

/-- discord.Embed.__len__ restricted to the components the source sets:
the length of the title plus the lengths of every field name and value. -/
def Embed.len (b : Embed) : Nat :=
  b.title.length + (b.fields.map (fun f => f.name.length + f.value.length)).sum

/-- The embed field name chosen by the isinstance check in update_embed
(src/periodic_tasks.py lines 121-124). -/
def kindLabel : Kind → String
  | .module => "Module"
  | .moduleItem => "Module Item"

/-- get_field_value from src/periodic_tasks.py lines 62-83: the title if
present, else the name; truncated with an ellipsis past
MAX_IDENTIFIER_LENGTH; wrapped as a markdown hyperlink if html_url exists. -/
def get_field_value (e : Entry) : String :=
  let field :=
    match e.title with
    | some t => t
    | none => e.name.getD ""
  let field :=
    if MAX_IDENTIFIER_LENGTH < field.length then
      field.take (MAX_IDENTIFIER_LENGTH - 3) ++ "..."
    else field
  match e.html_url with
  | some u => "[" ++ field ++ "](" ++ u ++ ")"
  | none => field

/-- The embed field produced for one entry: the kind label together with
get_field_value. -/
def entryField (e : Entry) : Field :=
  ⟨kindLabel e.kind, get_field_value e⟩

/-- The line handle_module writes for an entry (src/periodic_tasks.py lines
156-162): the module name for a Module, else the html_url if present, else
the title, each followed by a newline. -/
def to_write (e : Entry) : String :=
  match e.kind with
  | .module => e.name.getD "" ++ "\n"
  | .moduleItem =>
    match e.html_url with
    | some u => u ++ "\n"
    | none => e.title.getD "" ++ "\n"

/-- update_embed from src/periodic_tasks.py lines 85-133.  ct is the
"(continued)" title built from the course name.  Returns the updated
(embed, num_fields) pair and the updated embed_list. -/
def update_embed (ct : String) (embed : Embed) (e : Entry) (num_fields : Nat)
    (embed_list : List Embed) : Embed × Nat × List Embed :=
  let field_value := get_field_value e
  let t1 : Embed × Nat × List Embed :=
    if EMBED_CHAR_LIMIT < 11 + field_value.length + embed.len then
      (⟨ct, []⟩, 0, embed_list ++ [embed])
    else
      (embed, num_fields, embed_list)
  let embed2 : Embed := ⟨t1.1.title, t1.1.fields ++ [⟨kindLabel e.kind, field_value⟩]⟩
  let nf2 : Nat := t1.2.1 + 1
  if nf2 = 25 then
    (⟨ct, []⟩, 0, t1.2.2 ++ [embed2])
  else
    (embed2, nf2, t1.2.2)

/-- The mutable state threaded through the module loop of check_canvas:
the lines written so far to modules.txt (opened for writing, hence starting
empty), the current embed, its field count, and the embeds closed so far. -/
structure LoopState where
  file : List String
  embed : Embed
  nf : Nat
  embeds : List Embed
deriving DecidableEq

/-- handle_module from src/periodic_tasks.py lines 135-171: write the
entry's line, and extend the current embed exactly when the line is not in
the pre-existing snapshot. -/
def handle_module (ct : String) (existing : List String) (s : LoopState)
    (e : Entry) : LoopState :=
  let tw := to_write e
  let file := s.file ++ [tw]
  if tw ∈ existing then
    { s with file := file }
  else
    let r := update_embed ct s.embed e s.nf s.embeds
    ⟨file, r.1, r.2.1, r.2.2⟩

/-- The entries processed by the module loop of check_canvas (lines
199-209): every module that has a name, followed by those of its items that
have a title, in fetch order; a nameless module and its items are skipped. -/
def entriesOf (tree : List ModuleNode) : List Entry :=
  tree.foldr
    (fun n acc =>
      if n.mod.name.isSome then
        n.mod :: n.items.filter (fun i => i.title.isSome) ++ acc
      else acc) []

/-- The module loop of check_canvas, folding handle_module over the
processed entries. -/
def runEntries (ct : String) (existing : List String) (s : LoopState)
    (es : List Entry) : LoopState :=
  es.foldl (handle_module ct existing) s

/-- The title of the first embed (src/periodic_tasks.py line 195). -/
def mainTitle (cn : String) : String :=
  "New modules found for " ++ cn ++ ":"

/-- The title of every continuation embed (src/periodic_tasks.py lines 118
and 130). -/
def contTitle (cn : String) : String :=
  "New modules for " ++ cn ++ " (continued):"

/-- The per-course fetch-diff-batch computation of check_canvas (lines
190-212), given the course name, the fetched tree and the previous snapshot
lines: returns the rewritten modules.txt lines and embeds_to_send, the
current embed being appended iff curr_num_fields is nonzero. -/
def check_course (cn : String) (tree : List ModuleNode) (old : List String) :
    List String × List Embed :=
  let s := runEntries (contTitle cn) old ⟨[], ⟨mainTitle cn, []⟩, 0, []⟩ (entriesOf tree)
  (s.file, if s.nf = 0 then s.embeds else s.embeds ++ [s.embed])

/-- The on-disk state of one tracked course: whether its directory exists,
and the lines of modules.txt, watchers.txt and course_name.txt. -/
structure CourseState where
  dirExists : Bool
  modulesFile : List String
  watchersFile : List String
  courseName : Option String
deriving DecidableEq

/-- The error classes raised by the Canvas client. -/
inductive FetchErr
  | unauthorized
  | invalidToken
  | notFound
  | network
deriving DecidableEq

/-- The outcome of the remote fetch for one course: either get_course raises,
or it succeeds with the course name and the module tree enumeration yields
the listed nodes and then optionally raises mid-enumeration. -/
inductive Fetch
  | err : FetchErr → Fetch
  | ok : String → List ModuleNode → Option FetchErr → Fetch
deriving DecidableEq

/-- An observable action of one reconciliation cycle, in program order:
truncating modules.txt on open for writing, appending one line to it, and
sending one embed to one watcher handle. -/
inductive Event
  | truncateSnapshot
  | writeLine : String → Event
  | send : String → Embed → Event
deriving DecidableEq

/-- True exactly on the events that mutate the snapshot file. -/
def Event.isSnapshotWrite : Event → Bool
  | .truncateSnapshot => true
  | .writeLine _ => true
  | .send _ _ => false

/-- True exactly on notification delivery events. -/
def Event.isSend : Event → Bool
  | .send _ _ => true
  | _ => false

/-- Modelled from the spec: util.create_file_if_not_exists, which
check_canvas calls (src/periodic_tasks.py lines 187-188) but which is not
defined under src/ (src/util.py defines only ensure_file_exists).  Per the
spec's Local Store contract it idempotently creates the file and its parent
directories when absent and never destroys existing data; on the modelled
state, where a file is its list of lines, it returns the lines unchanged. -/
def create_file_if_not_exists (lines : List String) : List String := lines

/-- The delivery loop of check_canvas (lines 215-219): watcher handles are
taken in file order; a handle that resolves receives every embed in order;
at the first handle that does not resolve, channel.send raises and the loop
is abandoned — no events for it or for later handles, and the flag is
false.  Returns the send events and whether the loop completed. -/
def sendLoop (resolve : String → Bool) : List String → List Embed → List Event × Bool
  | [], _ => ([], true)
  | w :: rest, embeds =>
    if resolve w then
      let p := sendLoop resolve rest embeds
      (embeds.map (Event.send w) ++ p.1, p.2)
    else ([], false)

/-- The outcome of one course's reconciliation: the resulting on-disk state,
the event trace, and whether the cycle ran to completion (false when the
surrounding try/except caught an exception and logged it). -/
structure RunResult where
  state : CourseState
  events : List Event
  ok : Bool
deriving DecidableEq

/-- One course's pass of check_canvas (src/periodic_tasks.py lines 177-222).
On a get_course error the except clause logs and nothing is touched.
Otherwise modules.txt is truncated and rewritten during the module loop;
if enumeration raises mid-loop the lines written so far remain and the
cycle aborts; on full enumeration the embeds are delivered to the watcher
handles, a resolution failure aborting the cycle after the snapshot was
already rewritten.  watchers.txt and course_name.txt are never modified. -/
def runCourse (resolve : String → Bool) (f : Fetch) (st : CourseState) : RunResult :=
  match f with
  | .err _ => ⟨st, [], false⟩
  | .ok cn nodes merr =>
    let existing := create_file_if_not_exists st.modulesFile
    let watchers := create_file_if_not_exists st.watchersFile
    let s := runEntries (contTitle cn) existing ⟨[], ⟨mainTitle cn, []⟩, 0, []⟩ (entriesOf nodes)
    let writes := Event.truncateSnapshot :: s.file.map Event.writeLine
    match merr with
    | some _ =>
      ⟨{ st with modulesFile := s.file }, writes, false⟩
    | none =>
      let embeds := if s.nf = 0 then s.embeds else s.embeds ++ [s.embed]
      if embeds.isEmpty then
        ⟨{ st with modulesFile := s.file }, writes, true⟩
      else
        let p := sendLoop resolve watchers embeds
        ⟨{ st with modulesFile := s.file }, writes ++ p.1, p.2⟩

/-- The course loop of check_canvas: the try/except sits inside the for
loop, so every tracked course is processed regardless of earlier failures. -/
def check_canvas (resolve : String → Bool) (courses : List (Fetch × CourseState)) :
    List RunResult :=
  courses.map fun c => runCourse resolve c.1 c.2

/-- CanvasUtil.get_modules from src/util.py lines 23-37: every module
followed by every one of its items, unfiltered, in fetch order. -/
def get_modules (tree : List ModuleNode) : List Entry :=
  tree.foldr (fun n acc => n.mod :: n.items ++ acc) []

/-- CanvasUtil.write_modules_to_file from src/util.py lines 39-47: one
decimal id per line. -/
def write_modules_to_file (modules : List Entry) : List String :=
  modules.map fun m => Nat.repr m.id ++ "\n"

/-- util.ensure_file_exists lifted to a course directory: a missing
directory is created with empty files; an existing one is untouched. -/
def ensureDir (st : CourseState) : CourseState :=
  if st.dirExists then st else ⟨true, [], [], none⟩

/-- Main.store_channel_in_file from src/commands.py lines 182-208: the
newline-terminated channel id is appended iff no line equals it; returns
whether it was newly added, with the resulting file lines. -/
def store_channel_in_file (ch : String) (file : List String) : Bool × List String :=
  let line := ch ++ "\n"
  if line ∈ file then (false, file) else (true, file ++ [line])

/-- Main.delete_channel_from_file from src/commands.py lines 210-233:
rewrites the file keeping every line different from the channel's line;
returns whether the line was present, with the resulting file lines. -/
def delete_channel_from_file (ch : String) (file : List String) : Bool × List String :=
  (decide ((ch ++ "\n") ∈ file), file.filter (fun l => l ≠ ch ++ "\n"))

/-- The empty on-disk state after shutil.rmtree of a course directory. -/
def deadState : CourseState := ⟨false, [], [], none⟩

/-- The enable branch of Main.track (src/commands.py lines 98-112): ensure
the watcher file exists, add the channel, store the course name, ensure the
modules file exists, and, when the channel was newly added and the modules
file is empty, fill it with the ids of the full fetched tree. -/
def track_enable (ch cn : String) (tree : List ModuleNode) (st : CourseState) :
    CourseState × Bool :=
  let st := ensureDir st
  let r := store_channel_in_file ch st.watchersFile
  let st : CourseState :=
    { st with watchersFile := r.2, courseName := some cn }
  if r.1 ∧ st.modulesFile = [] then
    ({ st with modulesFile := write_modules_to_file (get_modules tree) }, r.1)
  else (st, r.1)

/-- The disable branch of Main.track (src/commands.py lines 113-122):
remove the channel's line, then delete the whole course directory when the
watcher file is now empty. -/
def track_disable (ch : String) (st : CourseState) : CourseState × Bool :=
  let st := ensureDir st
  let r := delete_channel_from_file ch st.watchersFile
  let st : CourseState := { st with watchersFile := r.2 }
  if st.watchersFile = [] then (deadState, r.1) else (st, r.1)

/-- All fields of a list of embeds, in order. -/
def embedFields (el : List Embed) : List Field :=
  (el.map Embed.fields).flatten

/-- All fields accumulated so far: the fields of the closed embeds followed
by the fields of the current embed. -/
def batchFields (el : List Embed) (b : Embed) : List Field :=
  embedFields el ++ b.fields

/-- An entry whose rendered embed field fits into a fresh continuation
embed within the character limit. -/
def fits (ct : String) (e : Entry) : Prop :=
  11 + (get_field_value e).length + ct.length ≤ EMBED_CHAR_LIMIT

instance (ct : String) (e : Entry) : Decidable (fits ct e) :=
  Nat.decLe _ _

/-- A batch within both Discord budgets enforced by update_embed. -/
def goodBatch (b : Embed) : Prop :=
  b.fields.length ≤ 25 ∧ b.len ≤ EMBED_CHAR_LIMIT


/-- A 6000-character course name, used to exhibit a batch that exceeds the
character budget on its title alone. -/
def longCourseName : String := String.mk (List.replicate 6000 'c')

/-! ### Lemmas about the batcher -/

theorem kindLabel_length_le (k : Kind) : (kindLabel k).length ≤ 11 := by
  cases k <;> decide

theorem Embed.len_nil_fields (t : String) : Embed.len ⟨t, []⟩ = t.length := by
  simp [Embed.len]

theorem Embed.len_single (t n v : String) :
    Embed.len ⟨t, [⟨n, v⟩]⟩ = t.length + (n.length + v.length) := by
  simp [Embed.len]

theorem Embed.len_add_entry (t : String) (fs : List Field) (n v : String) :
    Embed.len ⟨t, fs ++ [⟨n, v⟩]⟩ = Embed.len ⟨t, fs⟩ + (n.length + v.length) := by
  simp [Embed.len]
  omega

theorem Embed.len_eta (b : Embed) : Embed.len ⟨b.title, b.fields⟩ = b.len := rfl

theorem update_embed_eq_fire (ct : String) (b : Embed) (e : Entry) (nf : Nat)
    (el : List Embed)
    (hc : EMBED_CHAR_LIMIT < 11 + (get_field_value e).length + b.len) :
    update_embed ct b e nf el =
      (⟨ct, [⟨kindLabel e.kind, get_field_value e⟩]⟩, 1, el ++ [b]) := by
  simp [update_embed, hc]

theorem update_embed_eq_close (ct : String) (b : Embed) (e : Entry) (nf : Nat)
    (el : List Embed)
    (hc : ¬ EMBED_CHAR_LIMIT < 11 + (get_field_value e).length + b.len)
    (hn : nf + 1 = 25) :
    update_embed ct b e nf el =
      (⟨ct, []⟩, 0, el ++ [⟨b.title, b.fields ++ [⟨kindLabel e.kind, get_field_value e⟩]⟩]) := by
  simp [update_embed, hc, hn]

theorem update_embed_eq_cont (ct : String) (b : Embed) (e : Entry) (nf : Nat)
    (el : List Embed)
    (hc : ¬ EMBED_CHAR_LIMIT < 11 + (get_field_value e).length + b.len)
    (hn : ¬ nf + 1 = 25) :
    update_embed ct b e nf el =
      (⟨b.title, b.fields ++ [⟨kindLabel e.kind, get_field_value e⟩]⟩, nf + 1, el) := by
  simp [update_embed, hc, hn]

theorem update_embed_fields (ct : String) (b : Embed) (e : Entry) (nf : Nat)
    (el : List Embed) :
    batchFields (update_embed ct b e nf el).2.2 (update_embed ct b e nf el).1 =
      batchFields el b ++ [entryField e] := by
  by_cases hc : EMBED_CHAR_LIMIT < 11 + (get_field_value e).length + b.len
  · rw [update_embed_eq_fire ct b e nf el hc]
    simp [batchFields, embedFields, entryField]
  · by_cases hn : nf + 1 = 25
    · rw [update_embed_eq_close ct b e nf el hc hn]
      simp [batchFields, embedFields, entryField]
    · rw [update_embed_eq_cont ct b e nf el hc hn]
      simp [batchFields, embedFields, entryField]

theorem update_embed_nf (ct : String) (b : Embed) (e : Entry) (nf : Nat)
    (el : List Embed) (h : nf = b.fields.length) :
    (update_embed ct b e nf el).2.1 = (update_embed ct b e nf el).1.fields.length := by
  by_cases hc : EMBED_CHAR_LIMIT < 11 + (get_field_value e).length + b.len
  · rw [update_embed_eq_fire ct b e nf el hc]
    rfl
  · by_cases hn : nf + 1 = 25
    · rw [update_embed_eq_close ct b e nf el hc hn]
      rfl
    · rw [update_embed_eq_cont ct b e nf el hc hn]
      simp [h]

theorem update_embed_inv (ct : String) (b : Embed) (e : Entry) (nf : Nat)
    (el : List Embed)
    (hfit : fits ct e)
    (hnf : nf = b.fields.length) (hle : nf ≤ 24) (hcur : b.len ≤ EMBED_CHAR_LIMIT)
    (hel : ∀ x ∈ el, goodBatch x) :
    ((update_embed ct b e nf el).2.1 = (update_embed ct b e nf el).1.fields.length) ∧
    (update_embed ct b e nf el).2.1 ≤ 24 ∧
    (update_embed ct b e nf el).1.len ≤ EMBED_CHAR_LIMIT ∧
    ∀ x ∈ (update_embed ct b e nf el).2.2, goodBatch x := by
  have hlab : (kindLabel e.kind).length ≤ 11 := kindLabel_length_le e.kind
  have hfit' : 11 + (get_field_value e).length + ct.length ≤ EMBED_CHAR_LIMIT := hfit
  by_cases hc : EMBED_CHAR_LIMIT < 11 + (get_field_value e).length + b.len
  · rw [update_embed_eq_fire ct b e nf el hc]
    refine ⟨rfl, ?_, ?_, ?_⟩
    · show (1 : Nat) ≤ 24
      omega
    · show Embed.len ⟨ct, [⟨kindLabel e.kind, get_field_value e⟩]⟩ ≤ EMBED_CHAR_LIMIT
      rw [Embed.len_single]
      omega
    · show ∀ x ∈ el ++ [b], goodBatch x
      intro x hx
      rcases List.mem_append.mp hx with hx | hx
      · exact hel x hx
      · rcases List.mem_singleton.mp hx with rfl
        exact ⟨by omega, hcur⟩
  · have hc' : 11 + (get_field_value e).length + b.len ≤ EMBED_CHAR_LIMIT := by omega
    have hlen2 : Embed.len ⟨b.title, b.fields ++ [⟨kindLabel e.kind, get_field_value e⟩]⟩ ≤
        EMBED_CHAR_LIMIT := by
      rw [Embed.len_add_entry, Embed.len_eta]
      omega
    by_cases hn : nf + 1 = 25
    · rw [update_embed_eq_close ct b e nf el hc hn]
      refine ⟨rfl, ?_, ?_, ?_⟩
      · show (0 : Nat) ≤ 24
        omega
      · show Embed.len ⟨ct, []⟩ ≤ EMBED_CHAR_LIMIT
        rw [Embed.len_nil_fields]
        omega
      · show ∀ x ∈ el ++ [⟨b.title, b.fields ++ [⟨kindLabel e.kind, get_field_value e⟩]⟩],
            goodBatch x
        intro x hx
        rcases List.mem_append.mp hx with hx | hx
        · exact hel x hx
        · rcases List.mem_singleton.mp hx with rfl
          refine ⟨?_, hlen2⟩
          show (b.fields ++ [(⟨kindLabel e.kind, get_field_value e⟩ : Field)]).length ≤ 25
          simp only [List.length_append, List.length_cons, List.length_nil]
          omega
    · rw [update_embed_eq_cont ct b e nf el hc hn]
      refine ⟨?_, ?_, hlen2, fun x hx => hel x hx⟩
      · show nf + 1 = (b.fields ++ [(⟨kindLabel e.kind, get_field_value e⟩ : Field)]).length
        rw [List.length_append]
        simp [hnf]
      · show nf + 1 ≤ 24
        omega

theorem handle_module_mem (ct : String) (existing : List String) (s : LoopState)
    (e : Entry) (h : to_write e ∈ existing) :
    handle_module ct existing s e = ⟨s.file ++ [to_write e], s.embed, s.nf, s.embeds⟩ := by
  simp [handle_module, h]

theorem handle_module_not_mem (ct : String) (existing : List String) (s : LoopState)
    (e : Entry) (h : to_write e ∉ existing) :
    handle_module ct existing s e =
      ⟨s.file ++ [to_write e], (update_embed ct s.embed e s.nf s.embeds).1,
        (update_embed ct s.embed e s.nf s.embeds).2.1,
        (update_embed ct s.embed e s.nf s.embeds).2.2⟩ := by
  simp [handle_module, h]

theorem handle_module_file (ct : String) (existing : List String) (s : LoopState)
    (e : Entry) :
    (handle_module ct existing s e).file = s.file ++ [to_write e] := by
  by_cases h : to_write e ∈ existing
  · rw [handle_module_mem ct existing s e h]
  · rw [handle_module_not_mem ct existing s e h]

theorem runEntries_cons (ct : String) (existing : List String) (s : LoopState)
    (e : Entry) (es : List Entry) :
    runEntries ct existing s (e :: es) =
      runEntries ct existing (handle_module ct existing s e) es := rfl

theorem runEntries_file (ct : String) (existing : List String) (es : List Entry)
    (s : LoopState) :
    (runEntries ct existing s es).file = s.file ++ es.map to_write := by
  induction es generalizing s with
  | nil => simp [runEntries]
  | cons e es ih =>
    rw [runEntries_cons, ih, handle_module_file]
    simp

theorem runEntries_fields (ct : String) (existing : List String) (es : List Entry)
    (s : LoopState) :
    batchFields (runEntries ct existing s es).embeds (runEntries ct existing s es).embed =
      batchFields s.embeds s.embed ++
        (es.filter (fun e => decide (to_write e ∉ existing))).map entryField := by
  induction es generalizing s with
  | nil => simp [runEntries]
  | cons e es ih =>
    rw [runEntries_cons, ih]
    by_cases h : to_write e ∈ existing
    · rw [handle_module_mem ct existing s e h]
      have hfc : (e :: es).filter (fun x => decide (to_write x ∉ existing)) =
          es.filter (fun x => decide (to_write x ∉ existing)) := by
        simp [List.filter_cons, h]
      rw [hfc]
    · rw [handle_module_not_mem ct existing s e h]
      have hfc : (e :: es).filter (fun x => decide (to_write x ∉ existing)) =
          e :: es.filter (fun x => decide (to_write x ∉ existing)) := by
        simp [List.filter_cons, h]
      rw [hfc, List.map_cons]
      show batchFields (update_embed ct s.embed e s.nf s.embeds).2.2
          (update_embed ct s.embed e s.nf s.embeds).1 ++
          (es.filter (fun x => decide (to_write x ∉ existing))).map entryField =
        batchFields s.embeds s.embed ++
          (entryField e :: (es.filter (fun x => decide (to_write x ∉ existing))).map entryField)
      rw [update_embed_fields ct s.embed e s.nf s.embeds]
      simp

theorem runEntries_inv (ct : String) (existing : List String) (es : List Entry)
    (s : LoopState)
    (hfit : ∀ e ∈ es, fits ct e)
    (hnf : s.nf = s.embed.fields.length) (hle : s.nf ≤ 24)
    (hcur : s.embed.len ≤ EMBED_CHAR_LIMIT)
    (hel : ∀ x ∈ s.embeds, goodBatch x) :
    ((runEntries ct existing s es).nf = (runEntries ct existing s es).embed.fields.length) ∧
    (runEntries ct existing s es).nf ≤ 24 ∧
    (runEntries ct existing s es).embed.len ≤ EMBED_CHAR_LIMIT ∧
    ∀ x ∈ (runEntries ct existing s es).embeds, goodBatch x := by
  induction es generalizing s with
  | nil => exact ⟨hnf, hle, hcur, hel⟩
  | cons e es ih =>
    rw [runEntries_cons]
    by_cases h : to_write e ∈ existing
    · rw [handle_module_mem ct existing s e h]
      exact ih _ (fun x hx => hfit x (List.mem_cons_of_mem e hx)) hnf hle hcur hel
    · rw [handle_module_not_mem ct existing s e h]
      have hupd := update_embed_inv ct s.embed e s.nf s.embeds
        (hfit e (List.mem_cons_self e es)) hnf hle hcur hel
      exact ih _ (fun x hx => hfit x (List.mem_cons_of_mem e hx))
        hupd.1 hupd.2.1 hupd.2.2.1 hupd.2.2.2

theorem runEntries_nf_eq (ct : String) (existing : List String) (es : List Entry)
    (s : LoopState) (hnf : s.nf = s.embed.fields.length) :
    (runEntries ct existing s es).nf = (runEntries ct existing s es).embed.fields.length := by
  induction es generalizing s with
  | nil => exact hnf
  | cons e es ih =>
    rw [runEntries_cons]
    by_cases h : to_write e ∈ existing
    · rw [handle_module_mem ct existing s e h]
      exact ih _ hnf
    · rw [handle_module_not_mem ct existing s e h]
      exact ih _ (update_embed_nf ct s.embed e s.nf s.embeds hnf)

/-! ### Lemmas about check_course, sendLoop and runCourse -/

theorem embedFields_append_single (el : List Embed) (b : Embed) :
    embedFields (el ++ [b]) = embedFields el ++ b.fields := by
  simp [embedFields]

theorem check_course_fst (cn : String) (tree : List ModuleNode) (old : List String) :
    (check_course cn tree old).1 =
      (runEntries (contTitle cn) old ⟨[], ⟨mainTitle cn, []⟩, 0, []⟩ (entriesOf tree)).file := rfl

theorem check_course_snd (cn : String) (tree : List ModuleNode) (old : List String) :
    (check_course cn tree old).2 =
      (if (runEntries (contTitle cn) old ⟨[], ⟨mainTitle cn, []⟩, 0, []⟩ (entriesOf tree)).nf = 0
       then (runEntries (contTitle cn) old ⟨[], ⟨mainTitle cn, []⟩, 0, []⟩ (entriesOf tree)).embeds
       else (runEntries (contTitle cn) old ⟨[], ⟨mainTitle cn, []⟩, 0, []⟩ (entriesOf tree)).embeds
         ++ [(runEntries (contTitle cn) old ⟨[], ⟨mainTitle cn, []⟩, 0, []⟩ (entriesOf tree)).embed]) := rfl

theorem check_course_file (cn : String) (tree : List ModuleNode) (old : List String) :
    (check_course cn tree old).1 = (entriesOf tree).map to_write := by
  rw [check_course_fst, runEntries_file]
  simp

theorem check_course_fields (cn : String) (tree : List ModuleNode) (old : List String) :
    embedFields (check_course cn tree old).2 =
      ((entriesOf tree).filter (fun e => decide (to_write e ∉ old))).map entryField := by
  have hnf := runEntries_nf_eq (contTitle cn) old (entriesOf tree)
    ⟨[], ⟨mainTitle cn, []⟩, 0, []⟩ rfl
  have hf := runEntries_fields (contTitle cn) old (entriesOf tree)
    ⟨[], ⟨mainTitle cn, []⟩, 0, []⟩
  have hinit : batchFields (⟨[], ⟨mainTitle cn, []⟩, 0, []⟩ : LoopState).embeds
      (⟨[], ⟨mainTitle cn, []⟩, 0, []⟩ : LoopState).embed = [] := by
    simp [batchFields, embedFields]
  rw [hinit, List.nil_append] at hf
  rw [check_course_snd]
  by_cases h : (runEntries (contTitle cn) old
      ⟨[], ⟨mainTitle cn, []⟩, 0, []⟩ (entriesOf tree)).nf = 0
  · rw [if_pos h]
    have hempty : (runEntries (contTitle cn) old
        ⟨[], ⟨mainTitle cn, []⟩, 0, []⟩ (entriesOf tree)).embed.fields = [] := by
      rw [h] at hnf
      exact List.length_eq_zero.mp hnf.symm
    rw [batchFields, hempty, List.append_nil] at hf
    exact hf
  · rw [if_neg h, embedFields_append_single]
    exact hf

theorem check_course_bounds (cn : String) (tree : List ModuleNode) (old : List String)
    (hmain : (mainTitle cn).length ≤ EMBED_CHAR_LIMIT)
    (hfit : ∀ e ∈ entriesOf tree, fits (contTitle cn) e) :
    ∀ b ∈ (check_course cn tree old).2, goodBatch b := by
  have hinv := runEntries_inv (contTitle cn) old (entriesOf tree)
    ⟨[], ⟨mainTitle cn, []⟩, 0, []⟩ hfit rfl
    (by show (0 : Nat) ≤ 24; omega)
    (by show Embed.len ⟨mainTitle cn, []⟩ ≤ EMBED_CHAR_LIMIT
        rw [Embed.len_nil_fields]; exact hmain)
    (by intro x hx; exact absurd hx (List.not_mem_nil x))
  intro b hb
  rw [check_course_snd] at hb
  by_cases h : (runEntries (contTitle cn) old
      ⟨[], ⟨mainTitle cn, []⟩, 0, []⟩ (entriesOf tree)).nf = 0
  · rw [if_pos h] at hb
    exact hinv.2.2.2 b hb
  · rw [if_neg h] at hb
    rcases List.mem_append.mp hb with hb | hb
    · exact hinv.2.2.2 b hb
    · rcases List.mem_singleton.mp hb with rfl
      exact ⟨by rw [← hinv.1]; omega, hinv.2.2.1⟩

theorem sendLoop_all_send (resolve : String → Bool) (ws : List String)
    (es : List Embed) :
    ∀ ev ∈ (sendLoop resolve ws es).1, ev.isSend = true := by
  induction ws with
  | nil => intro ev hev; simp [sendLoop] at hev
  | cons w rest ih =>
    intro ev hev
    by_cases h : resolve w
    · simp only [sendLoop, h, if_true] at hev
      rcases List.mem_append.mp hev with hev | hev
      · rcases List.mem_map.mp hev with ⟨em, _, rfl⟩
        rfl
      · exact ih ev hev
    · simp only [sendLoop, h, if_false] at hev
      simp at hev

theorem sendLoop_all_resolve (resolve : String → Bool) (ws : List String)
    (es : List Embed) (h : ∀ w ∈ ws, resolve w = true) :
    sendLoop resolve ws es = (ws.flatMap (fun w => es.map (Event.send w)), true) := by
  induction ws with
  | nil => simp [sendLoop]
  | cons w rest ih =>
    have hw : resolve w = true := h w (List.mem_cons_self w rest)
    simp only [sendLoop, hw, if_true]
    rw [ih (fun x hx => h x (List.mem_cons_of_mem w hx))]
    simp [List.flatMap_cons]

theorem sendLoop_fail (resolve : String → Bool) (a : List String) (w : String)
    (b : List String) (es : List Embed)
    (ha : ∀ x ∈ a, resolve x = true) (hw : resolve w = false) :
    sendLoop resolve (a ++ w :: b) es = (a.flatMap (fun x => es.map (Event.send x)), false) := by
  induction a with
  | nil =>
    simp only [List.nil_append, sendLoop, hw]
    simp
  | cons x xs ih =>
    have hx : resolve x = true := ha x (List.mem_cons_self x xs)
    simp only [List.cons_append, sendLoop, hx, if_true]
    simp only [List.append_eq]
    rw [ih (fun y hy => ha y (List.mem_cons_of_mem x hy))]
    simp [List.flatMap_cons]

theorem runCourse_err (resolve : String → Bool) (e : FetchErr) (st : CourseState) :
    runCourse resolve (.err e) st = ⟨st, [], false⟩ := rfl

theorem runCourse_enum_err (resolve : String → Bool) (cn : String)
    (nodes : List ModuleNode) (e : FetchErr) (st : CourseState) :
    runCourse resolve (.ok cn nodes (some e)) st =
      ⟨{ st with modulesFile := (entriesOf nodes).map to_write },
        Event.truncateSnapshot :: ((entriesOf nodes).map to_write).map Event.writeLine,
        false⟩ := by
  show (⟨{ st with modulesFile := (runEntries (contTitle cn) st.modulesFile
      ⟨[], ⟨mainTitle cn, []⟩, 0, []⟩ (entriesOf nodes)).file },
      Event.truncateSnapshot :: ((runEntries (contTitle cn) st.modulesFile
      ⟨[], ⟨mainTitle cn, []⟩, 0, []⟩ (entriesOf nodes)).file).map Event.writeLine,
      false⟩ : RunResult) = _
  rw [runEntries_file]
  simp

theorem runCourse_ok_none (resolve : String → Bool) (cn : String)
    (nodes : List ModuleNode) (st : CourseState) :
    runCourse resolve (.ok cn nodes none) st =
      (if (check_course cn nodes st.modulesFile).2.isEmpty then
        (⟨{ st with modulesFile := (check_course cn nodes st.modulesFile).1 },
          Event.truncateSnapshot ::
            (check_course cn nodes st.modulesFile).1.map Event.writeLine, true⟩ : RunResult)
      else
        ⟨{ st with modulesFile := (check_course cn nodes st.modulesFile).1 },
          (Event.truncateSnapshot ::
            (check_course cn nodes st.modulesFile).1.map Event.writeLine) ++
            (sendLoop resolve st.watchersFile (check_course cn nodes st.modulesFile).2).1,
          (sendLoop resolve st.watchersFile (check_course cn nodes st.modulesFile).2).2⟩) := rfl

theorem runCourse_watchers (resolve : String → Bool) (f : Fetch) (st : CourseState) :
    (runCourse resolve f st).state.watchersFile = st.watchersFile := by
  cases f with
  | err e => rfl
  | ok cn nodes merr =>
    cases merr with
    | some e => rfl
    | none =>
      rw [runCourse_ok_none]
      by_cases h : (check_course cn nodes st.modulesFile).2.isEmpty
      · rw [if_pos h]
      · rw [if_neg h]

theorem runCourse_courseName (resolve : String → Bool) (f : Fetch) (st : CourseState) :
    (runCourse resolve f st).state.courseName = st.courseName := by
  cases f with
  | err e => rfl
  | ok cn nodes merr =>
    cases merr with
    | some e => rfl
    | none =>
      rw [runCourse_ok_none]
      by_cases h : (check_course cn nodes st.modulesFile).2.isEmpty
      · rw [if_pos h]
      · rw [if_neg h]

theorem runCourse_dirExists (resolve : String → Bool) (f : Fetch) (st : CourseState) :
    (runCourse resolve f st).state.dirExists = st.dirExists := by
  cases f with
  | err e => rfl
  | ok cn nodes merr =>
    cases merr with
    | some e => rfl
    | none =>
      rw [runCourse_ok_none]
      by_cases h : (check_course cn nodes st.modulesFile).2.isEmpty
      · rw [if_pos h]
      · rw [if_neg h]

theorem writes_all_snapshot (file : List String) :
    ∀ x ∈ Event.truncateSnapshot :: file.map Event.writeLine, x.isSnapshotWrite = true := by
  intro x hx
  rcases List.mem_cons.mp hx with rfl | hx
  · rfl
  · rcases List.mem_map.mp hx with ⟨l, _, rfl⟩
    rfl

theorem runEntries_nil (ct : String) (existing : List String) (s : LoopState) :
    runEntries ct existing s [] = s := rfl

theorem longCourseName_length : longCourseName.length = 6000 := by
  show (List.replicate 6000 'c').length = 6000
  rw [List.length_replicate]

theorem mainTitle_longCourseName_length : (mainTitle longCourseName).length = 6023 := by
  unfold mainTitle
  rw [String.length_append, String.length_append, longCourseName_length]
  rfl

/-! ### Claim theorems -/

/-- Claim C1: the diff step of the reconciliation cycle reports as new
exactly the fetched entries whose snapshot line (module name, item html_url
or item title — the identifier the code compares) is absent from the known
lines, preserving fetch order: the concatenated fields of all produced
embeds equal the order-preserving filter of the processed entries. -/
theorem C1_diff_exact (cn : String) (tree : List ModuleNode) (old : List String) :
    embedFields (check_course cn tree old).2 =
      ((entriesOf tree).filter (fun e => decide (to_write e ∉ old))).map entryField :=
  check_course_fields cn tree old

/-- Claim C2, counterexample: when get_course raises Unauthorized for a
tracked course with one watcher, the source's except clause only logs: the
resulting state is unchanged (the course directory still exists) and zero
send events occur, contradicting the claimed notify-then-delete teardown. -/
theorem C2_counterexample :
    runCourse (fun _ => true) (.err .unauthorized)
        ⟨true, ["x\n"], ["1\n"], some "CPSC 110"⟩ =
      ⟨⟨true, ["x\n"], ["1\n"], some "CPSC 110"⟩, [], false⟩ ∧
    (runCourse (fun _ => true) (.err .unauthorized)
        ⟨true, ["x\n"], ["1\n"], some "CPSC 110"⟩).state.dirExists = true ∧
    ((runCourse (fun _ => true) (.err .unauthorized)
        ⟨true, ["x\n"], ["1\n"], some "CPSC 110"⟩).events.filter Event.isSend).length = 0 :=
  ⟨rfl, rfl, rfl⟩

/-- Claim C2, amended: an access-revoked error (Unauthorized, InvalidToken
or NotFound) raised by get_course is handled by the same per-course except
clause as any other error: the cycle is aborted and logged, no teardown
notice is sent, and the course's directory and files are left unchanged. -/
theorem C2_amended (resolve : String → Bool) (st : CourseState) (e : FetchErr)
    (h : e = .unauthorized ∨ e = .invalidToken ∨ e = .notFound) :
    runCourse resolve (.err e) st = ⟨st, [], false⟩ :=
  runCourse_err resolve e st

/-- Witness for C2_amended at the Unauthorized error and a concrete state. -/
theorem C2_amended_witness :
    ((FetchErr.unauthorized = .unauthorized ∨ FetchErr.unauthorized = .invalidToken ∨
        FetchErr.unauthorized = .notFound) ∧
      runCourse (fun _ => true) (.err .unauthorized)
          ⟨true, ["x\n"], ["1\n"], some "CPSC 110"⟩ =
        ⟨⟨true, ["x\n"], ["1\n"], some "CPSC 110"⟩, [], false⟩) :=
  ⟨Or.inl rfl, C2_amended (fun _ => true) ⟨true, ["x\n"], ["1\n"], some "CPSC 110"⟩
    .unauthorized (Or.inl rfl)⟩

/-- Claim C3, counterexample: a transient error raised while enumerating
the module tree (here: immediately, before any module is yielded) leaves
modules.txt truncated to the lines written so far — here empty — although
it previously held a line, contradicting "all local files unchanged". -/
theorem C3_counterexample :
    (runCourse (fun _ => true) (.ok "CPSC 110" [] (some .network))
        ⟨true, ["Week 1\n"], ["1\n"], some "CPSC 110"⟩).state.modulesFile = [] ∧
    (⟨true, ["Week 1\n"], ["1\n"], some "CPSC 110"⟩ : CourseState).modulesFile =
      ["Week 1\n"] ∧
    (["Week 1\n"] : List String) ≠ ([] : List String) := by
  refine ⟨by decide, rfl, by decide⟩

/-- Claim C3, amended: on a non-access-revoked failure the course's cycle
is aborted and logged and every course is still processed, and the watcher
list, course name and directory are untouched; but the snapshot file is
only unchanged when the failure precedes the snapshot rewrite (get_course
errors) — a failure during module-tree enumeration leaves modules.txt
truncated to exactly the lines written before the failure. -/
theorem C3_amended (resolve : String → Bool) (st : CourseState) (cn : String)
    (nodes : List ModuleNode) (e e2 : FetchErr)
    (courses : List (Fetch × CourseState)) :
    runCourse resolve (.err e2) st = ⟨st, [], false⟩ ∧
    runCourse resolve (.ok cn nodes (some e)) st =
      ⟨⟨st.dirExists, (entriesOf nodes).map to_write, st.watchersFile, st.courseName⟩,
        Event.truncateSnapshot :: ((entriesOf nodes).map to_write).map Event.writeLine,
        false⟩ ∧
    check_canvas resolve courses = courses.map (fun c => runCourse resolve c.1 c.2) := by
  refine ⟨runCourse_err resolve e2 st, ?_, rfl⟩
  rw [runCourse_enum_err]

/-- Claim C4, counterexample: in a cycle with one new item and one
resolvable watcher, the event trace is a snapshot truncation and a
snapshot line write followed by a send — the snapshot is rewritten before
notification delivery, contradicting "persist only after NOTIFY". -/
theorem C4_counterexample :
    (runCourse (fun _ => true)
        (.ok "c" [⟨⟨Kind.module, 1, some "A", none, none⟩, []⟩] none)
        ⟨true, [], ["1\n"], some "c"⟩).events.map Event.isSnapshotWrite =
      [true, true, false] ∧
    (runCourse (fun _ => true)
        (.ok "c" [⟨⟨Kind.module, 1, some "A", none, none⟩, []⟩] none)
        ⟨true, [], ["1\n"], some "c"⟩).events.map Event.isSend =
      [false, false, true] := by
  refine ⟨by decide, by decide⟩

/-- Claim C4, amended: the temporal order is the reverse of the claimed
one — in every per-course cycle the event trace splits into all snapshot
mutations (truncation and line writes) followed by all notification
sends: the snapshot rewrite always completes before delivery begins. -/
theorem C4_amended (resolve : String → Bool) (f : Fetch) (st : CourseState) :
    ∃ a b, (runCourse resolve f st).events = a ++ b ∧
      (∀ x ∈ a, x.isSnapshotWrite = true) ∧ (∀ x ∈ b, x.isSend = true) := by
  cases f with
  | err e => exact ⟨[], [], by simp [runCourse_err], by simp, by simp⟩
  | ok cn nodes merr =>
    cases merr with
    | some e =>
      refine ⟨Event.truncateSnapshot ::
          ((entriesOf nodes).map to_write).map Event.writeLine, [], ?_,
        writes_all_snapshot _, by simp⟩
      rw [runCourse_enum_err]
      simp
    | none =>
      rw [runCourse_ok_none]
      by_cases h : (check_course cn nodes st.modulesFile).2.isEmpty
      · rw [if_pos h]
        exact ⟨Event.truncateSnapshot ::
            (check_course cn nodes st.modulesFile).1.map Event.writeLine, [],
          by simp, writes_all_snapshot _, by simp⟩
      · rw [if_neg h]
        exact ⟨Event.truncateSnapshot ::
            (check_course cn nodes st.modulesFile).1.map Event.writeLine,
          (sendLoop resolve st.watchersFile (check_course cn nodes st.modulesFile).2).1,
          rfl, writes_all_snapshot _, sendLoop_all_send _ _ _⟩

/-- Witness for C4_amended at a concrete cycle with one new item and one
watcher. -/
theorem C4_amended_witness :
    ∃ a b, (runCourse (fun _ => true)
        (.ok "c" [⟨⟨Kind.module, 1, some "A", none, none⟩, []⟩] none)
        ⟨true, [], ["1\n"], some "c"⟩).events = a ++ b ∧
      (∀ x ∈ a, x.isSnapshotWrite = true) ∧ (∀ x ∈ b, x.isSend = true) :=
  C4_amended (fun _ => true)
    (.ok "c" [⟨⟨Kind.module, 1, some "A", none, none⟩, []⟩] none)
    ⟨true, [], ["1\n"], some "c"⟩

/-- Claim C5: batching correctness.  Concatenating the fields of all
produced embeds reproduces the new entries exactly once each, in order;
and, provided the first title fits the budget and every rendered entry
fits a fresh continuation embed (the "correctly pre-truncated display
strings" proviso), no embed has more than 25 fields or exceeds the
6000-character limit. -/
theorem C5_batching (cn : String) (tree : List ModuleNode) (old : List String)
    (hmain : (mainTitle cn).length ≤ EMBED_CHAR_LIMIT)
    (hfit : ∀ e ∈ entriesOf tree, fits (contTitle cn) e) :
    embedFields (check_course cn tree old).2 =
      ((entriesOf tree).filter (fun e => decide (to_write e ∉ old))).map entryField ∧
    ∀ b ∈ (check_course cn tree old).2,
      b.fields.length ≤ 25 ∧ b.len ≤ EMBED_CHAR_LIMIT :=
  ⟨check_course_fields cn tree old, check_course_bounds cn tree old hmain hfit⟩

/-- Witness for C5_batching on a two-entry tree with no prior snapshot. -/
theorem C5_batching_witness :
    (((mainTitle "CPSC 110").length ≤ EMBED_CHAR_LIMIT ∧
      ∀ e ∈ entriesOf [⟨⟨Kind.module, 1, some "A", none, none⟩,
          [⟨Kind.moduleItem, 2, none, some "B", some "u"⟩]⟩],
        fits (contTitle "CPSC 110") e) ∧
      (embedFields (check_course "CPSC 110"
          [⟨⟨Kind.module, 1, some "A", none, none⟩,
            [⟨Kind.moduleItem, 2, none, some "B", some "u"⟩]⟩] []).2 =
        ((entriesOf [⟨⟨Kind.module, 1, some "A", none, none⟩,
            [⟨Kind.moduleItem, 2, none, some "B", some "u"⟩]⟩]).filter
          (fun e => decide (to_write e ∉ ([] : List String)))).map entryField ∧
      ∀ b ∈ (check_course "CPSC 110"
          [⟨⟨Kind.module, 1, some "A", none, none⟩,
            [⟨Kind.moduleItem, 2, none, some "B", some "u"⟩]⟩] []).2,
        b.fields.length ≤ 25 ∧ b.len ≤ EMBED_CHAR_LIMIT)) :=
  ⟨⟨by decide, by decide⟩,
    C5_batching "CPSC 110"
      [⟨⟨Kind.module, 1, some "A", none, none⟩,
        [⟨Kind.moduleItem, 2, none, some "B", some "u"⟩]⟩] []
      (by decide) (by decide)⟩

/-- Claim C6, counterexample: with watchers "1" and "2" on file and
destination "1" failing to resolve, check_canvas aborts the course cycle
at the failed resolution: the watcher file still contains the dead handle
(nothing is pruned) and no embed is sent to anyone — the resolvable
watcher "2" receives nothing — contradicting drop-and-continue delivery. -/
theorem C6_counterexample :
    (runCourse (fun h => h != "1\n")
        (.ok "c" [⟨⟨Kind.module, 1, some "A", none, none⟩, []⟩] none)
        ⟨true, [], ["1\n", "2\n"], some "c"⟩).state.watchersFile = ["1\n", "2\n"] ∧
    ((fun (h : String) => h != "1\n") "1\n") = false ∧
    (runCourse (fun h => h != "1\n")
        (.ok "c" [⟨⟨Kind.module, 1, some "A", none, none⟩, []⟩] none)
        ⟨true, [], ["1\n", "2\n"], some "c"⟩).events.map Event.isSend =
      [false, false] := by
  refine ⟨by decide, by decide, by decide⟩

/-- Claim C6, amended: the reconciliation cycle never modifies the watcher
file (no pruning).  Delivery walks the handles in file order: every handle
before the first unresolvable one receives every batch in batch order;
at the first unresolvable handle the loop raises and is abandoned, so that
handle and all later ones receive nothing and the cycle ends in failure;
when every handle resolves, every handle receives every batch in order. -/
theorem C6_amended (resolve : String → Bool) (f : Fetch) (st : CourseState)
    (a : List String) (w : String) (b : List String) (ws : List String)
    (es : List Embed)
    (ha : ∀ x ∈ a, resolve x = true) (hw : resolve w = false)
    (hws : ∀ x ∈ ws, resolve x = true) :
    (runCourse resolve f st).state.watchersFile = st.watchersFile ∧
    sendLoop resolve (a ++ w :: b) es =
      (a.flatMap (fun x => es.map (Event.send x)), false) ∧
    sendLoop resolve ws es = (ws.flatMap (fun x => es.map (Event.send x)), true) :=
  ⟨runCourse_watchers resolve f st, sendLoop_fail resolve a w b es ha hw,
    sendLoop_all_resolve resolve ws es hws⟩

/-- Witness for C6_amended with one live handle before the dead one. -/
theorem C6_amended_witness :
    ((∀ x ∈ ["0\n"], (fun (h : String) => h != "1\n") x = true) ∧
      (fun (h : String) => h != "1\n") "1\n" = false ∧
      (∀ x ∈ ["2\n"], (fun (h : String) => h != "1\n") x = true)) ∧
    ((runCourse (fun h => h != "1\n") (.err .network)
        ⟨true, [], ["0\n"], none⟩).state.watchersFile = ["0\n"] ∧
      sendLoop (fun h => h != "1\n") (["0\n"] ++ "1\n" :: ["2\n"]) [⟨"t", []⟩] =
        (["0\n"].flatMap (fun x => [(⟨"t", []⟩ : Embed)].map (Event.send x)), false) ∧
      sendLoop (fun h => h != "1\n") ["2\n"] [⟨"t", []⟩] =
        (["2\n"].flatMap (fun x => [(⟨"t", []⟩ : Embed)].map (Event.send x)), true)) :=
  ⟨⟨by decide, by decide, by decide⟩,
    C6_amended (fun h => h != "1\n") (.err .network) ⟨true, [], ["0\n"], none⟩
      ["0\n"] "1\n" ["2\n"] ["2\n"] [⟨"t", []⟩]
      (by decide) (by decide) (by decide)⟩

/-- Claim C7, counterexample: disabling the last watcher does delete the
course directory, but re-enabling does not leave an empty snapshot: the
enable command immediately refills modules.txt with one numeric id per
line fetched from the remote tree — here the single line "5" — so the
recreated snapshot file is not empty. -/
theorem C7_counterexample :
    (track_disable "9" ⟨true, ["Intro\n"], ["9\n"], some "X"⟩).1 = deadState ∧
    (track_enable "9" "X" [⟨⟨Kind.module, 5, some "Intro", none, none⟩, []⟩]
        (track_disable "9" ⟨true, ["Intro\n"], ["9\n"], some "X"⟩).1).1.modulesFile =
      ["5\n"] ∧
    (["5\n"] : List String) ≠ ([] : List String) := by
  refine ⟨by decide, by decide, by decide⟩

/-- Claim C7, amended: disabling the last watcher removes the course
directory entirely; re-enabling recreates the directory with the channel
as sole watcher and the course name stored, and immediately fills the
snapshot with the ids of the full fetched tree (so it is empty only when
the remote tree is empty; the next cycle still resyncs because those id
lines are compared against name/url/title lines, per C9). -/
theorem C7_amended (ch cn : String) (tree : List ModuleNode) (st : CourseState)
    (hlast : (ensureDir st).watchersFile.filter (fun l => l ≠ ch ++ "\n") = []) :
    (track_disable ch st).1 = deadState ∧
    track_enable ch cn tree deadState =
      (⟨true, write_modules_to_file (get_modules tree), [ch ++ "\n"], some cn⟩, true) := by
  constructor
  · simp only [track_disable, delete_channel_from_file]
    rw [if_pos hlast]
  · simp [track_enable, ensureDir, deadState, store_channel_in_file]

/-- Witness for C7_amended at a single-watcher course and one-module tree. -/
theorem C7_amended_witness :
    ((ensureDir ⟨true, ["Intro\n"], ["9\n"], some "X"⟩).watchersFile.filter
        (fun l => l ≠ "9" ++ "\n") = [] ∧
      ((track_disable "9" ⟨true, ["Intro\n"], ["9\n"], some "X"⟩).1 = deadState ∧
        track_enable "9" "X" [⟨⟨Kind.module, 5, some "Intro", none, none⟩, []⟩] deadState =
          (⟨true, write_modules_to_file
              (get_modules [⟨⟨Kind.module, 5, some "Intro", none, none⟩, []⟩]),
            ["9" ++ "\n"], some "X"⟩, true))) :=
  ⟨by decide, C7_amended "9" "X" [⟨⟨Kind.module, 5, some "Intro", none, none⟩, []⟩]
    ⟨true, ["Intro\n"], ["9\n"], some "X"⟩ (by decide)⟩

/-- Claim C8: adding the same watcher twice returns true then false, and
the watcher count after the second call equals the count after the first. -/
theorem C8_add_watcher (ch : String) (file : List String)
    (h : (ch ++ "\n") ∉ file) :
    (store_channel_in_file ch file).1 = true ∧
    (store_channel_in_file ch (store_channel_in_file ch file).2).1 = false ∧
    (store_channel_in_file ch (store_channel_in_file ch file).2).2.length =
      (store_channel_in_file ch file).2.length := by
  have h1 : store_channel_in_file ch file = (true, file ++ [ch ++ "\n"]) := by
    simp [store_channel_in_file, h]
  have hmem : (ch ++ "\n") ∈ file ++ [ch ++ "\n"] := by simp
  have h2 : store_channel_in_file ch (file ++ [ch ++ "\n"]) =
      (false, file ++ [ch ++ "\n"]) := by
    simp [store_channel_in_file, hmem]
  rw [h1, h2]
  exact ⟨rfl, rfl, rfl⟩

/-- Witness for C8_add_watcher on an empty watcher file. -/
theorem C8_add_watcher_witness :
    (("123" ++ "\n") ∉ ([] : List String) ∧
      ((store_channel_in_file "123" []).1 = true ∧
        (store_channel_in_file "123" (store_channel_in_file "123" []).2).1 = false ∧
        (store_channel_in_file "123" (store_channel_in_file "123" []).2).2.length =
          (store_channel_in_file "123" []).2.length)) :=
  ⟨by decide, C8_add_watcher "123" [] (by decide)⟩

/-- Claim C9, counterexample: for a tree holding one module whose name is
the decimal string of its own id, the enable-time writer and the
reconciliation writer produce identical file contents, and the first
reconciliation after enabling classifies nothing as new even though the
tree is non-empty — refuting both universal parts of the claim. -/
theorem C9_counterexample :
    write_modules_to_file (get_modules [⟨⟨Kind.module, 7, some "7", none, none⟩, []⟩]) =
      (entriesOf [⟨⟨Kind.module, 7, some "7", none, none⟩, []⟩]).map to_write ∧
    entriesOf [⟨⟨Kind.module, 7, some "7", none, none⟩, []⟩] ≠ [] ∧
    embedFields (check_course "c" [⟨⟨Kind.module, 7, some "7", none, none⟩, []⟩]
      (write_modules_to_file
        (get_modules [⟨⟨Kind.module, 7, some "7", none, none⟩, []⟩]))).2 = [] := by
  refine ⟨by decide, by decide, by decide⟩

/-- Claim C9, amended: the enable command persists one numeric id per line
while the hourly reconciliation compares and rewrites name/html_url/title
lines; hence, provided no fetched entry's snapshot line coincides with any
stored id line, the first reconciliation after enabling classifies every
fetched entry as new, and on a non-empty tree the two writers' outputs
differ. -/
theorem C9_amended (cn : String) (tree : List ModuleNode)
    (h : ∀ e ∈ entriesOf tree,
      to_write e ∉ write_modules_to_file (get_modules tree)) :
    embedFields (check_course cn tree (write_modules_to_file (get_modules tree))).2 =
      (entriesOf tree).map entryField ∧
    (entriesOf tree ≠ [] →
      (check_course cn tree (write_modules_to_file (get_modules tree))).1 ≠
        write_modules_to_file (get_modules tree)) := by
  constructor
  · rw [check_course_fields]
    congr 1
    apply List.filter_eq_self.mpr
    intro e he
    simpa using h e he
  · intro hne heq
    rw [check_course_file] at heq
    rcases List.exists_cons_of_ne_nil hne with ⟨e0, t0, h0⟩
    have hmem : to_write e0 ∈ (entriesOf tree).map to_write := by
      rw [h0]
      exact List.mem_map_of_mem to_write (List.mem_cons_self e0 t0)
    rw [heq] at hmem
    exact h e0 (by rw [h0]; exact List.mem_cons_self e0 t0) hmem

/-- Witness for C9_amended on a one-module tree with distinct name and id. -/
theorem C9_amended_witness :
    ((∀ e ∈ entriesOf [⟨⟨Kind.module, 1, some "A", none, none⟩, []⟩],
        to_write e ∉ write_modules_to_file
          (get_modules [⟨⟨Kind.module, 1, some "A", none, none⟩, []⟩])) ∧
      (embedFields (check_course "c" [⟨⟨Kind.module, 1, some "A", none, none⟩, []⟩]
          (write_modules_to_file
            (get_modules [⟨⟨Kind.module, 1, some "A", none, none⟩, []⟩]))).2 =
        (entriesOf [⟨⟨Kind.module, 1, some "A", none, none⟩, []⟩]).map entryField ∧
      (entriesOf [⟨⟨Kind.module, 1, some "A", none, none⟩, []⟩] ≠ [] →
        (check_course "c" [⟨⟨Kind.module, 1, some "A", none, none⟩, []⟩]
            (write_modules_to_file
              (get_modules [⟨⟨Kind.module, 1, some "A", none, none⟩, []⟩]))).1 ≠
          write_modules_to_file
            (get_modules [⟨⟨Kind.module, 1, some "A", none, none⟩, []⟩])))) :=
  ⟨by decide, C9_amended "c" [⟨⟨Kind.module, 1, some "A", none, none⟩, []⟩] (by decide)⟩

/-- Claim C10: when the first entry's rendered length plus 11 plus the
current embed's length (here dominated by a 6000-character course name in
the title) exceeds 6000 while the embed still has zero fields, update_embed
appends the title-only embed to the output before starting a fresh batch:
the produced batch list has field counts [0, 1] — a batch with zero
entries. -/
theorem C10_zero_entry_batch :
    ((check_course longCourseName
        [⟨⟨Kind.module, 1, some "M", none, none⟩, []⟩] []).2).map
      (fun b => b.fields.length) = [0, 1] := by
  have hval : get_field_value ⟨Kind.module, 1, some "M", none, none⟩ = "M" := rfl
  have hc : EMBED_CHAR_LIMIT <
      11 + (get_field_value ⟨Kind.module, 1, some "M", none, none⟩).length +
        (⟨[], ⟨mainTitle longCourseName, []⟩, 0, []⟩ : LoopState).embed.len := by
    have hlen : (⟨[], ⟨mainTitle longCourseName, []⟩, 0, []⟩ : LoopState).embed.len = 6023 := by
      show Embed.len ⟨mainTitle longCourseName, []⟩ = 6023
      rw [Embed.len_nil_fields, mainTitle_longCourseName_length]
    rw [hval, hlen]
    norm_num [EMBED_CHAR_LIMIT]
  have hentries : entriesOf [⟨⟨Kind.module, 1, some "M", none, none⟩, []⟩] =
      [⟨Kind.module, 1, some "M", none, none⟩] := rfl
  rw [check_course_snd, hentries, runEntries_cons,
    handle_module_not_mem _ _ _ _ (List.not_mem_nil _), runEntries_nil]
  rw [update_embed_eq_fire _ _ _ _ _ hc]
  simp

end CanvasTracker
